import Mathlib

/-!
Formal model of the 3D U-Net graph builder in src/unet_3D.py.

Every Keras layer application is modelled as a constructor of the symbolic
graph type Node, so the value returned by a builder function is the whole
computation graph it wired.  Keras shares subgraphs by reference; in this
tree model a shared subgraph appears as several equal subterms, and two
occurrences denote the same layer object exactly when the subterms are
equal.  Python float parameters (inc_rate, dropout) are modelled as
rationals, Python int parameters as integers, and the Python truthiness
test "if do" as the decidable test "do is nonzero".  Construction failure
(the raise statement in level_block) is modelled with Except.
-/

namespace UNet3D

/-- Symbolic Keras graph node.  A convolution records its filter count, the
scalar kernel size, the scalar stride (Keras broadcasts a scalar stride to
all three spatial axes), whether padding is same (true) or valid (false),
and the optional activation string (none when the layer is built without an
activation argument). -/
inductive Node where
  | input (shape : List ℤ)
  | conv3D (filters kernel strides : ℤ) (samePad : Bool) (acti : Option String) (m : Node)
  | batchNorm (m : Node)
  | dropout (rate : ℚ) (m : Node)
  | maxPooling3D (p1 p2 p3 : ℤ) (m : Node)
  | upSampling3D (u1 u2 u3 : ℤ) (m : Node)
  | concatenate (a b : Node)
deriving DecidableEq

/-- Keras Model(inputs, outputs), as returned by UNet. -/
structure Model where
  inputs : Node
  outputs : Node
deriving DecidableEq

/-- Conditional batch normalization, the expression
BatchNormalization()(n) if bn else n from conv_block. -/
def bnIf (bn : Bool) (n : Node) : Node :=
  if bn then Node.batchNorm n else n

/-- conv_block from unet_3D.py: a same-padding 3x3x3 convolution with the
given activation, optional batch normalization, a dropout layer when the
rate do_ is truthy (nonzero), a second identical convolution with optional
batch normalization, and finally either the plain chain or its
concatenation with the block input when res is set. -/
def conv_block (m : Node) (dim : ℤ) (acti : String) (bn res : Bool) (do_ : ℚ) : Node :=
  let n1 := bnIf bn (Node.conv3D dim 3 1 true (some acti) m)
  let n2 := if do_ ≠ 0 then Node.dropout do_ n1 else n1
  let n3 := bnIf bn (Node.conv3D dim 3 1 true (some acti) n2)
  if res then Node.concatenate m n3 else n3

/-- Python int() applied to a rational: truncation toward zero. -/
def pyInt (q : ℚ) : ℤ :=
  if 0 ≤ q then ⌊q⌋ else ⌈q⌉

/-- The Python expression int(inc * dim) from line 48 of unet_3D.py.  The
exact product inc * dim equals inc.num * dim / inc.den with a positive
denominator, so its truncation toward zero is the truncating integer
division of inc.num * dim by inc.den.  The lemma pyIntMul_eq_pyInt below
checks this against pyInt; this form is used in level_blockN because it
evaluates by kernel reduction. -/
def pyIntMul (inc : ℚ) (dim : ℤ) : ℤ :=
  (inc.num * dim).tdiv inc.den

/-- level_block from unet_3D.py, recursion written on a natural number.
The Python code tests depth > 0 and recurses on depth - 1, so for an
integer depth the recursion runs depth.toNat times and then takes the base
case; level_block below wraps this function accordingly.  The fuel-0 case
is the Python else branch (the bottleneck conv_block receiving the dropout
rate); the successor case builds the encoder block, downsamples by 1x2x2
max pooling or by a stride-2 3x3x3 convolution without activation, recurses
with int(inc * dim) filters, then either upsamples by 1x2x2 followed by a
2x2x2 convolution, concatenates with the skip and builds the decoder block,
or raises the designated error when up is false. -/
def level_blockN (inc : ℚ) (acti : String) (do_ : ℚ) (bn mp up res : Bool) :
    ℕ → Node → ℤ → Except String Node
  | 0, m, dim => .ok (conv_block m dim acti bn res do_)
  | k + 1, m, dim =>
    let n := conv_block m dim acti bn res 0
    let m1 := if mp then Node.maxPooling3D 1 2 2 n else Node.conv3D dim 3 2 true none n
    match level_blockN inc acti do_ bn mp up res k m1 (pyIntMul inc dim) with
    | .error e => .error e
    | .ok m2 =>
      if up then
        .ok (conv_block
          (Node.concatenate n (Node.conv3D dim 2 1 true (some acti) (Node.upSampling3D 1 2 2 m2)))
          dim acti bn res 0)
      else
        .error "Unet in 3D does not work without upsampling"

/-- level_block from unet_3D.py with its Python integer depth argument. -/
def level_block (m : Node) (dim : ℤ) (depth : ℤ) (inc : ℚ) (acti : String) (do_ : ℚ)
    (bn mp up res : Bool) : Except String Node :=
  level_blockN inc acti do_ bn mp up res depth.toNat m dim

/-- UNet from unet_3D.py: one input node, the level recursion, and a final
kernel-size-1 valid-padding convolution with out_ch filters and sigmoid
activation, wrapped into a Model. -/
def UNet (img_shape : List ℤ) (out_ch start_ch : ℤ) (depth : ℤ) (inc_rate : ℚ)
    (activation : String) (dropout : ℚ) (batchnorm maxpool upconv residual : Bool) :
    Except String Model :=
  let i := Node.input img_shape
  match level_block i start_ch depth inc_rate activation dropout batchnorm maxpool upconv residual with
  | .error e => .error e
  | .ok o => .ok ⟨i, Node.conv3D out_ch 1 1 false (some "sigmoid") o⟩

/-- Filter counts passed down the level recursion: line 48 of unet_3D.py
computes the next filter count as int(inc * dim), so after k descents the
count is the k-fold truncated product. -/
def levelDim (s : ℤ) (inc : ℚ) : ℕ → ℤ
  | 0 => s
  | k + 1 => pyIntMul inc (levelDim s inc k)

/-- Ceiling of the integer division d / s (for positive s), used by the
Keras output-size formula for same padding. -/
def ceilDivI (d s : ℤ) : ℤ := -((-d).fdiv s)

/-- Keras output length of one spatial axis of a convolution: with same
padding it is the ceiling of d / stride, with valid padding it is
floor((d - kernel) / stride) + 1. -/
def convOutDim (samePad : Bool) (kernel strides d : ℤ) : ℤ :=
  if samePad then ceilDivI d strides else (d - kernel).fdiv strides + 1

/-- Keras output length of one spatial axis of max pooling with pool size p
(valid padding, stride defaulting to the pool size): floor(d / p). -/
def poolOutDim (p d : ℤ) : ℤ := d.fdiv p

/-- Keras static shape inference over the graph, for a rank-4 channels-last
input (three spatial axes and a channel axis).  Concatenation is along the
channel axis and requires the spatial axes of its arguments to agree;
mismatches, and inputs that are not rank 4, yield none, standing for the
construction-time shape errors of the framework. -/
def outShape : Node → Option (ℤ × ℤ × ℤ × ℤ)
  | .input l =>
    match l with
    | [a, b, c, ch] => some (a, b, c, ch)
    | _ => none
  | .conv3D f k s sp _ m =>
    match outShape m with
    | some (a, b, c, _) => some (convOutDim sp k s a, convOutDim sp k s b, convOutDim sp k s c, f)
    | none => none
  | .batchNorm m => outShape m
  | .dropout _ m => outShape m
  | .maxPooling3D p1 p2 p3 m =>
    match outShape m with
    | some (a, b, c, ch) => some (poolOutDim p1 a, poolOutDim p2 b, poolOutDim p3 c, ch)
    | none => none
  | .upSampling3D u1 u2 u3 m =>
    match outShape m with
    | some (a, b, c, ch) => some (a * u1, b * u2, c * u3, ch)
    | none => none
  | .concatenate x y =>
    match outShape x, outShape y with
    | some (a, b, c, ch1), some (a2, b2, c2, ch2) =>
      if a = a2 ∧ b = b2 ∧ c = c2 then some (a, b, c, ch1 + ch2) else none
    | _, _ => none

/-- Filter counts of all convolution nodes occurring in a graph, outermost
first. -/
def convFilters : Node → List ℤ
  | .input _ => []
  | .conv3D f _ _ _ _ m => f :: convFilters m
  | .batchNorm m => convFilters m
  | .dropout _ m => convFilters m
  | .maxPooling3D _ _ _ m => convFilters m
  | .upSampling3D _ _ _ m => convFilters m
  | .concatenate a b => convFilters a ++ convFilters b

/-- All dropout subterms occurring in a graph.  Two occurrences denote the
same Keras layer exactly when the subterms are equal. -/
def dropoutNodesIn : Node → List Node
  | .input _ => []
  | .conv3D _ _ _ _ _ m => dropoutNodesIn m
  | .batchNorm m => dropoutNodesIn m
  | .dropout r m => Node.dropout r m :: dropoutNodesIn m
  | .maxPooling3D _ _ _ m => dropoutNodesIn m
  | .upSampling3D _ _ _ m => dropoutNodesIn m
  | .concatenate a b => dropoutNodesIn a ++ dropoutNodesIn b

/-- True when no operation in the graph acts on the first spatial axis:
every pooling has first pool size 1, every upsampling has first factor 1,
and every convolution has stride 1 (a stride-1 same-padding or
kernel-size-1 convolution leaves every spatial extent unchanged). -/
def depthAxisUntouched : Node → Bool
  | .input _ => true
  | .conv3D _ _ s _ _ m => s == 1 && depthAxisUntouched m
  | .batchNorm m => depthAxisUntouched m
  | .dropout _ m => depthAxisUntouched m
  | .maxPooling3D p1 _ _ m => p1 == 1 && depthAxisUntouched m
  | .upSampling3D u1 _ _ m => u1 == 1 && depthAxisUntouched m
  | .concatenate a b => depthAxisUntouched a && depthAxisUntouched b

/-- Erases every batch-normalization node from a graph, leaving all other
nodes and their parameters unchanged. -/
def stripBN : Node → Node
  | .input l => .input l
  | .conv3D f k s sp a m => .conv3D f k s sp a (stripBN m)
  | .batchNorm m => stripBN m
  | .dropout r m => .dropout r (stripBN m)
  | .maxPooling3D p1 p2 p3 m => .maxPooling3D p1 p2 p3 (stripBN m)
  | .upSampling3D u1 u2 u3 m => .upSampling3D u1 u2 u3 (stripBN m)
  | .concatenate a b => .concatenate (stripBN a) (stripBN b)

/-- Erases every batch-normalization node from both slots of a model. -/
def stripBNModel (m : Model) : Model :=
  ⟨stripBN m.inputs, stripBN m.outputs⟩

/-- Decides whether t occurs as a subterm of g. -/
def contains (g t : Node) : Bool :=
  g == t ||
    match g with
    | .input _ => false
    | .conv3D _ _ _ _ _ m => contains m t
    | .batchNorm m => contains m t
    | .dropout _ m => contains m t
    | .maxPooling3D _ _ _ m => contains m t
    | .upSampling3D _ _ _ m => contains m t
    | .concatenate a b => contains a t || contains b t

/-- Extracts the graph of a successful construction (defaulting on error). -/
def resNode (e : Except String Node) : Node :=
  match e with
  | .ok n => n
  | .error _ => Node.input []

/-- Extracts the model of a successful construction (defaulting on error). -/
def resModel (e : Except String Model) : Model :=
  match e with
  | .ok m => m
  | .error _ => ⟨Node.input [], Node.input []⟩

/-- True when the construction succeeded without raising. -/
def isOk {α : Type} (e : Except String α) : Bool :=
  match e with
  | .ok _ => true
  | .error _ => false

/-- Sanity check for the numeric embedding: the truncating-division form of
int(inc * dim) agrees with truncation toward zero of the exact product. -/
theorem pyIntMul_eq_pyInt (inc : ℚ) (dim : ℤ) :
    pyIntMul inc dim = pyInt (inc * (dim : ℚ)) := by
  unfold pyIntMul pyInt
  have hq : inc * (dim : ℚ) = ((inc.num * dim : ℤ) : ℚ) / ((inc.den : ℕ) : ℚ) := by
    conv_lhs => rw [← Rat.num_div_den inc]
    push_cast
    ring
  rw [hq]
  rcases le_or_lt 0 (inc.num * dim) with hnn | hneg
  · have h0 : (0:ℚ) ≤ ((inc.num * dim : ℤ) : ℚ) / ((inc.den : ℕ) : ℚ) := by
      apply div_nonneg
      · exact_mod_cast hnn
      · positivity
    rw [if_pos h0, Int.tdiv_eq_ediv hnn (by positivity), Rat.floor_intCast_div_natCast]
  · have hdenpos : (0:ℚ) < ((inc.den : ℕ) : ℚ) := by
      exact_mod_cast inc.pos
    have h0 : ¬ (0:ℚ) ≤ ((inc.num * dim : ℤ) : ℚ) / ((inc.den : ℕ) : ℚ) := by
      rw [not_le]
      apply div_neg_of_neg_of_pos _ hdenpos
      exact_mod_cast hneg
    rw [if_neg h0]
    have hceil : ⌈((inc.num * dim : ℤ) : ℚ) / ((inc.den : ℕ) : ℚ)⌉
        = -⌊((-(inc.num * dim) : ℤ) : ℚ) / ((inc.den : ℕ) : ℚ)⌋ := by
      have h1 : ⌊-(((inc.num * dim : ℤ) : ℚ) / ((inc.den : ℕ) : ℚ))⌋
          = -⌈((inc.num * dim : ℤ) : ℚ) / ((inc.den : ℕ) : ℚ)⌉ := Int.floor_neg
      push_cast [neg_div] at h1 ⊢
      omega
    rw [hceil, Rat.floor_intCast_div_natCast]
    have htd : (inc.num * dim).tdiv (inc.den : ℤ) = -((-(inc.num * dim)).tdiv (inc.den : ℤ)) := by
      rw [Int.neg_tdiv]
      omega
    rw [htd, Int.tdiv_eq_ediv (by omega) (by positivity)]

/-- The integer truncated product with a natural multiplier is the exact
product. -/
theorem pyIntMul_natCast (q : ℕ) (s : ℤ) : pyIntMul (q : ℚ) s = (q : ℤ) * s := by
  simp [pyIntMul]

/-- With an integer growth rate the filter counts of the level recursion
are exact powers. -/
theorem levelDim_natCast (s : ℤ) (q : ℕ) (k : ℕ) :
    levelDim s (q : ℚ) k = s * (q : ℤ) ^ k := by
  induction k with
  | zero => simp [levelDim]
  | succ k ih =>
    rw [levelDim, ih, pyIntMul_natCast]
    ring

theorem outShape_bnIf (bn : Bool) (n : Node) : outShape (bnIf bn n) = outShape n := by
  cases bn <;> simp [bnIf, outShape]

theorem convFilters_bnIf (bn : Bool) (n : Node) : convFilters (bnIf bn n) = convFilters n := by
  cases bn <;> simp [bnIf, convFilters]

theorem dropoutNodesIn_bnIf (bn : Bool) (n : Node) :
    dropoutNodesIn (bnIf bn n) = dropoutNodesIn n := by
  cases bn <;> simp [bnIf, dropoutNodesIn]

theorem depthAxisUntouched_bnIf (bn : Bool) (n : Node) :
    depthAxisUntouched (bnIf bn n) = depthAxisUntouched n := by
  cases bn <;> simp [bnIf, depthAxisUntouched]

theorem stripBN_bnIf (bn : Bool) (n : Node) : stripBN (bnIf bn n) = stripBN n := by
  cases bn <;> simp [bnIf, stripBN]

/-- A stride-1 convolution axis keeps its length under same padding. -/
theorem convOutDim_same_one (k d : ℤ) : convOutDim true k 1 d = d := by
  simp [convOutDim, ceilDivI]

/-- A stride-1 kernel-1 convolution axis keeps its length under valid
padding. -/
theorem convOutDim_valid_one (d : ℤ) : convOutDim false 1 1 d = d := by
  simp [convOutDim]

/-- Shape of a convolution block: spatial axes are preserved and the
channel count becomes dim, or ch + dim with the residual concatenation. -/
theorem conv_block_outShape (m : Node) (dim : ℤ) (acti : String) (bn res : Bool) (d : ℚ)
    (a b c ch : ℤ) (h : outShape m = some (a, b, c, ch)) :
    outShape (conv_block m dim acti bn res d) = some (a, b, c, if res then ch + dim else dim) := by
  unfold conv_block
  by_cases hd : d = 0 <;> cases res <;>
    simp [hd, outShape, outShape_bnIf, convOutDim_same_one, h]

/-- Convolution filter counts contributed by a convolution block. -/
theorem convFilters_conv_block (m : Node) (dim : ℤ) (acti : String) (bn res : Bool) (d : ℚ) :
    convFilters (conv_block m dim acti bn res d)
      = (if res then convFilters m else []) ++ dim :: dim :: convFilters m := by
  unfold conv_block
  by_cases hd : d = 0 <;> cases res <;> cases bn <;>
    simp [hd, convFilters, bnIf, dropoutNodesIn]

/-- Dropout nodes contributed by a convolution block: exactly one new node
when the rate is nonzero, placed after the first convolution and its
optional normalization, besides the (possibly duplicated) dropout nodes of
the input graph. -/
theorem dropoutNodesIn_conv_block (m : Node) (dim : ℤ) (acti : String) (bn res : Bool) (d : ℚ) :
    dropoutNodesIn (conv_block m dim acti bn res d)
      = (if res then dropoutNodesIn m else [])
        ++ (if d = 0 then [] else
              [Node.dropout d (bnIf bn (Node.conv3D dim 3 1 true (some acti) m))])
        ++ dropoutNodesIn m := by
  unfold conv_block
  by_cases hd : d = 0 <;> cases res <;>
    simp [hd, dropoutNodesIn, dropoutNodesIn_bnIf]

/-- A convolution block leaves the first spatial axis untouched. -/
theorem depthAxisUntouched_conv_block (m : Node) (dim : ℤ) (acti : String) (bn res : Bool)
    (d : ℚ) :
    depthAxisUntouched (conv_block m dim acti bn res d) = depthAxisUntouched m := by
  unfold conv_block
  by_cases hd : d = 0 <;> cases res <;>
    simp [hd, depthAxisUntouched, depthAxisUntouched_bnIf]

/-- Erasing batch normalization from a block built with bn set gives the
block built without it. -/
theorem stripBN_conv_block (m : Node) (dim : ℤ) (acti : String) (bn res : Bool) (d : ℚ) :
    stripBN (conv_block m dim acti bn res d) = conv_block (stripBN m) dim acti false res d := by
  unfold conv_block
  by_cases hd : d = 0 <;> cases res <;> cases bn <;>
    simp [hd, stripBN, bnIf]

/-- Unfolding equation of the recursive case of the level recursion. -/
theorem level_blockN_succ (inc : ℚ) (acti : String) (do_ : ℚ) (bn mp up res : Bool)
    (k : ℕ) (m : Node) (dim : ℤ) :
    level_blockN inc acti do_ bn mp up res (k + 1) m dim =
      match level_blockN inc acti do_ bn mp up res k
          (if mp then Node.maxPooling3D 1 2 2 (conv_block m dim acti bn res 0)
           else Node.conv3D dim 3 2 true none (conv_block m dim acti bn res 0))
          (pyIntMul inc dim) with
      | .error e => .error e
      | .ok m2 =>
        if up then
          .ok (conv_block
            (Node.concatenate (conv_block m dim acti bn res 0)
              (Node.conv3D dim 2 1 true (some acti) (Node.upSampling3D 1 2 2 m2)))
            dim acti bn res 0)
        else .error "Unet in 3D does not work without upsampling" := rfl

/-- With upsampling enabled the level recursion always succeeds, and the
filter count it was called with appears among the convolution filters of
the graph it builds. -/
theorem level_blockN_up_ok (inc : ℚ) (acti : String) (do_ : ℚ) (bn mp res : Bool) :
    ∀ (k : ℕ) (m : Node) (dim : ℤ),
      ∃ g, level_blockN inc acti do_ bn mp true res k m dim = .ok g ∧ dim ∈ convFilters g := by
  intro k
  induction k with
  | zero =>
    intro m dim
    exact ⟨_, rfl, by simp [convFilters_conv_block]⟩
  | succ k ih =>
    intro m dim
    obtain ⟨g, hg, -⟩ := ih
      (if mp then Node.maxPooling3D 1 2 2 (conv_block m dim acti bn res 0)
       else Node.conv3D dim 3 2 true none (conv_block m dim acti bn res 0))
      (pyIntMul inc dim)
    refine ⟨conv_block
      (Node.concatenate (conv_block m dim acti bn res 0)
        (Node.conv3D dim 2 1 true (some acti) (Node.upSampling3D 1 2 2 g)))
      dim acti bn res 0, ?_, ?_⟩
    · rw [level_blockN_succ, hg]
      rfl
    · simp [convFilters_conv_block]

/-- With upsampling disabled and positive remaining depth the level
recursion raises the designated error. -/
theorem level_blockN_noup_err (inc : ℚ) (acti : String) (do_ : ℚ) (bn mp res : Bool) :
    ∀ (k : ℕ) (m : Node) (dim : ℤ),
      level_blockN inc acti do_ bn mp false res (k + 1) m dim
        = .error "Unet in 3D does not work without upsampling" := by
  intro k
  induction k with
  | zero =>
    intro m dim
    rw [level_blockN_succ]
    rfl
  | succ k ih =>
    intro m dim
    rw [level_blockN_succ, ih]

/-- Exact halving of an even axis under pooling. -/
theorem poolOutDim_two_mul (t : ℤ) : poolOutDim 2 (2 * t) = t := by
  simp [poolOutDim]

/-- Pool size 1 keeps an axis unchanged. -/
theorem poolOutDim_one (d : ℤ) : poolOutDim 1 d = d := by
  simp [poolOutDim]

/-- With max pooling and upsampling enabled, the level recursion maps a
rank-4 shape whose two trailing spatial axes are divisible by 2 to the
recursion depth to a graph of the same spatial shape (and some channel
count). -/
theorem level_blockN_shape (inc : ℚ) (acti : String) (do_ : ℚ) (bn res : Bool) :
    ∀ (k : ℕ) (m : Node) (dim a b c ch : ℤ),
      outShape m = some (a, b, c, ch) → (2:ℤ) ^ k ∣ b → (2:ℤ) ^ k ∣ c →
      ∃ g ch2, level_blockN inc acti do_ bn true true res k m dim = .ok g ∧
        outShape g = some (a, b, c, ch2) := by
  intro k
  induction k with
  | zero =>
    intro m dim a b c ch h hb hc
    exact ⟨_, _, rfl, conv_block_outShape m dim acti bn res do_ a b c ch h⟩
  | succ k ih =>
    intro m dim a b c ch h hb hc
    obtain ⟨t, rfl⟩ := hb
    obtain ⟨u, rfl⟩ := hc
    have hn : outShape (conv_block m dim acti bn res 0)
        = some (a, 2 ^ (k + 1) * t, 2 ^ (k + 1) * u, if res then ch + dim else dim) :=
      conv_block_outShape m dim acti bn res 0 a _ _ ch h
    have e1 : poolOutDim 2 ((2:ℤ) ^ (k + 1) * t) = 2 ^ k * t := by
      have e : (2:ℤ) ^ (k + 1) * t = 2 * (2 ^ k * t) := by ring
      rw [e, poolOutDim_two_mul]
    have e2 : poolOutDim 2 ((2:ℤ) ^ (k + 1) * u) = 2 ^ k * u := by
      have e : (2:ℤ) ^ (k + 1) * u = 2 * (2 ^ k * u) := by ring
      rw [e, poolOutDim_two_mul]
    have hpool : outShape (Node.maxPooling3D 1 2 2 (conv_block m dim acti bn res 0))
        = some (a, 2 ^ k * t, 2 ^ k * u, if res then ch + dim else dim) := by
      simp [outShape, hn, e1, e2, poolOutDim_one]
    obtain ⟨g, ch2, hgr, hgs⟩ := ih (Node.maxPooling3D 1 2 2 (conv_block m dim acti bn res 0))
      (pyIntMul inc dim) a (2 ^ k * t) (2 ^ k * u) (if res then ch + dim else dim) hpool
      ⟨t, rfl⟩ ⟨u, rfl⟩
    have hup : outShape (Node.conv3D dim 2 1 true (some acti) (Node.upSampling3D 1 2 2 g))
        = some (a, 2 ^ (k + 1) * t, 2 ^ (k + 1) * u, dim) := by
      have h1 : outShape (Node.upSampling3D 1 2 2 g)
          = some (a, 2 ^ (k + 1) * t, 2 ^ (k + 1) * u, ch2) := by
        rw [show outShape (Node.upSampling3D 1 2 2 g)
            = match outShape g with
              | some (x, y, z, w) => some (x * 1, y * 2, z * 2, w)
              | none => none from rfl, hgs]
        refine congrArg some ?_
        refine Prod.ext ?_ (Prod.ext ?_ (Prod.ext ?_ rfl)) <;> simp <;> ring
      rw [show outShape (Node.conv3D dim 2 1 true (some acti) (Node.upSampling3D 1 2 2 g))
          = match outShape (Node.upSampling3D 1 2 2 g) with
            | some (x, y, z, _) =>
              some (convOutDim true 2 1 x, convOutDim true 2 1 y, convOutDim true 2 1 z, dim)
            | none => none from rfl, h1]
      simp [convOutDim_same_one]
    have hcat : outShape (Node.concatenate (conv_block m dim acti bn res 0)
        (Node.conv3D dim 2 1 true (some acti) (Node.upSampling3D 1 2 2 g)))
        = some (a, 2 ^ (k + 1) * t, 2 ^ (k + 1) * u, (if res then ch + dim else dim) + dim) := by
      rw [show outShape (Node.concatenate (conv_block m dim acti bn res 0)
            (Node.conv3D dim 2 1 true (some acti) (Node.upSampling3D 1 2 2 g)))
          = match outShape (conv_block m dim acti bn res 0),
              outShape (Node.conv3D dim 2 1 true (some acti) (Node.upSampling3D 1 2 2 g)) with
            | some (x, y, z, w1), some (x2, y2, z2, w2) =>
              if x = x2 ∧ y = y2 ∧ z = z2 then some (x, y, z, w1 + w2) else none
            | _, _ => none from rfl, hn, hup]
      simp
    refine ⟨_, _, ?_, conv_block_outShape _ dim acti bn res 0 _ _ _ _ hcat⟩
    rw [level_blockN_succ]
    simp [hgr]

/-- A convolution block always contains a convolution with its own filter
count. -/
theorem self_mem_convFilters_conv_block (m : Node) (dim : ℤ) (acti : String)
    (bn res : Bool) (d : ℚ) : dim ∈ convFilters (conv_block m dim acti bn res d) := by
  rw [convFilters_conv_block]
  cases res <;> simp

/-- Filter memberships of the input graph survive a convolution block. -/
theorem mem_convFilters_conv_block (x : ℤ) (m : Node) (dim : ℤ) (acti : String)
    (bn res : Bool) (d : ℚ) (h : x ∈ convFilters m) :
    x ∈ convFilters (conv_block m dim acti bn res d) := by
  rw [convFilters_conv_block]
  cases res <;> simp [h]

/-- With an integer growth rate q and upsampling enabled, the level
recursion succeeds and for every j up to the remaining depth its graph
contains a convolution with dim * q ^ j filters: the blocks of recursion
level depth - j are built with exactly that filter count. -/
theorem level_blockN_filters_pow (q : ℕ) (acti : String) (do_ : ℚ) (bn mp res : Bool) :
    ∀ (k : ℕ) (m : Node) (dim : ℤ),
      ∃ g, level_blockN (q : ℚ) acti do_ bn mp true res k m dim = .ok g ∧
        ∀ j, j ≤ k → dim * (q : ℤ) ^ j ∈ convFilters g := by
  intro k
  induction k with
  | zero =>
    intro m dim
    refine ⟨_, rfl, ?_⟩
    intro j hj
    interval_cases j
    simpa using self_mem_convFilters_conv_block m dim acti bn res do_
  | succ k ih =>
    intro m dim
    obtain ⟨g, hg, hmem⟩ := ih
      (if mp then Node.maxPooling3D 1 2 2 (conv_block m dim acti bn res 0)
       else Node.conv3D dim 3 2 true none (conv_block m dim acti bn res 0))
      (pyIntMul (q : ℚ) dim)
    refine ⟨conv_block
      (Node.concatenate (conv_block m dim acti bn res 0)
        (Node.conv3D dim 2 1 true (some acti) (Node.upSampling3D 1 2 2 g)))
      dim acti bn res 0, ?_, ?_⟩
    · rw [level_blockN_succ, hg]
      rfl
    · intro j hj
      rcases Nat.eq_zero_or_pos j with rfl | hpos
      · simpa using self_mem_convFilters_conv_block _ dim acti bn res 0
      · obtain ⟨j0, rfl⟩ : ∃ j0, j = j0 + 1 := ⟨j - 1, by omega⟩
        have hin := hmem j0 (by omega)
        rw [pyIntMul_natCast] at hin
        have he : dim * (q : ℤ) ^ (j0 + 1) = (q : ℤ) * dim * (q : ℤ) ^ j0 := by ring
        rw [he]
        refine mem_convFilters_conv_block _ _ dim acti bn res 0 ?_
        simp only [convFilters, List.mem_append, List.mem_cons]
        tauto

/-- Every dropout node of a graph built by the level recursion is either a
dropout node of the input graph or the single bottleneck dropout node,
which carries rate do_ and exists only when do_ is nonzero. -/
theorem level_blockN_dropout (inc : ℚ) (acti : String) (do_ : ℚ) (bn mp up res : Bool) :
    ∀ (k : ℕ) (m : Node) (dim : ℤ) (g : Node),
      level_blockN inc acti do_ bn mp up res k m dim = .ok g →
      ∃ y, ∀ x ∈ dropoutNodesIn g,
        x ∈ dropoutNodesIn m ∨ (do_ ≠ 0 ∧ x = Node.dropout do_ y) := by
  intro k
  induction k with
  | zero =>
    intro m dim g hg
    refine ⟨bnIf bn (Node.conv3D dim 3 1 true (some acti) m), ?_⟩
    intro x hx
    obtain rfl : conv_block m dim acti bn res do_ = g := by
      simpa [level_blockN] using hg
    rw [dropoutNodesIn_conv_block] at hx
    simp only [List.mem_append] at hx
    rcases hx with (hA | hB) | hC
    · left
      cases res with
      | false => simp at hA
      | true => simpa using hA
    · by_cases hd : do_ = 0
      · rw [if_pos hd] at hB
        simp at hB
      · rw [if_neg hd] at hB
        simp only [List.mem_singleton] at hB
        exact Or.inr ⟨hd, hB⟩
    · exact Or.inl hC
  | succ k ih =>
    intro m dim g hg
    rw [level_blockN_succ] at hg
    cases hrec : level_blockN inc acti do_ bn mp up res k
        (if mp then Node.maxPooling3D 1 2 2 (conv_block m dim acti bn res 0)
         else Node.conv3D dim 3 2 true none (conv_block m dim acti bn res 0))
        (pyIntMul inc dim) with
    | error e => rw [hrec] at hg; cases hg
    | ok g2 =>
      rw [hrec] at hg
      obtain ⟨y, hy⟩ := ih _ (pyIntMul inc dim) g2 hrec
      cases up with
      | false => cases hg
      | true =>
        obtain rfl : conv_block
            (Node.concatenate (conv_block m dim acti bn res 0)
              (Node.conv3D dim 2 1 true (some acti) (Node.upSampling3D 1 2 2 g2)))
            dim acti bn res 0 = g := by
          simpa using hg
        refine ⟨y, ?_⟩
        have hskip : ∀ z, z ∈ dropoutNodesIn (conv_block m dim acti bn res 0) →
            z ∈ dropoutNodesIn m := by
          intro z hz
          rw [dropoutNodesIn_conv_block] at hz
          simp only [List.mem_append] at hz
          rcases hz with (h1 | h2) | h3
          · cases res with
            | false => simp at h1
            | true => simpa using h1
          · simp at h2
          · exact h3
        have hm1drop : dropoutNodesIn
            (if mp then Node.maxPooling3D 1 2 2 (conv_block m dim acti bn res 0)
             else Node.conv3D dim 3 2 true none (conv_block m dim acti bn res 0))
            = dropoutNodesIn (conv_block m dim acti bn res 0) := by
          cases mp <;> simp [dropoutNodesIn]
        have hpair : ∀ z, z ∈ dropoutNodesIn (conv_block m dim acti bn res 0)
              ++ dropoutNodesIn g2 →
            z ∈ dropoutNodesIn m ∨ (do_ ≠ 0 ∧ z = Node.dropout do_ y) := by
          intro z hz
          rcases List.mem_append.1 hz with h1 | h2
          · exact Or.inl (hskip z h1)
          · rcases hy z h2 with hin | hnu
            · rw [hm1drop] at hin
              exact Or.inl (hskip z hin)
            · exact Or.inr hnu
        intro x hx
        rw [dropoutNodesIn_conv_block] at hx
        simp only [List.mem_append] at hx
        rcases hx with (hA | hB) | hC
        · cases res with
          | false => simp at hA
          | true =>
            simp only [if_true] at hA
            exact hpair x (by simpa [dropoutNodesIn] using hA)
        · simp at hB
        · exact hpair x (by simpa [dropoutNodesIn] using hC)

/-- With max pooling and upsampling the level recursion adds no operation
acting on the first spatial axis: every pooling it creates has first pool
size 1, every upsampling has first factor 1, and every convolution has
stride 1. -/
theorem level_blockN_depthAxis (inc : ℚ) (acti : String) (do_ : ℚ) (bn res : Bool) :
    ∀ (k : ℕ) (m : Node) (dim : ℤ) (g : Node),
      level_blockN inc acti do_ bn true true res k m dim = .ok g →
      depthAxisUntouched g = depthAxisUntouched m := by
  intro k
  induction k with
  | zero =>
    intro m dim g hg
    obtain rfl : conv_block m dim acti bn res do_ = g := by
      simpa [level_blockN] using hg
    exact depthAxisUntouched_conv_block m dim acti bn res do_
  | succ k ih =>
    intro m dim g hg
    rw [level_blockN_succ] at hg
    cases hrec : level_blockN inc acti do_ bn true true res k
        (if true then Node.maxPooling3D 1 2 2 (conv_block m dim acti bn res 0)
         else Node.conv3D dim 3 2 true none (conv_block m dim acti bn res 0))
        (pyIntMul inc dim) with
    | error e => rw [hrec] at hg; cases hg
    | ok g2 =>
      rw [hrec] at hg
      obtain rfl : conv_block
          (Node.concatenate (conv_block m dim acti bn res 0)
            (Node.conv3D dim 2 1 true (some acti) (Node.upSampling3D 1 2 2 g2)))
          dim acti bn res 0 = g := by
        simpa using hg
      have h2 := ih _ (pyIntMul inc dim) g2 hrec
      simp only [if_true] at h2
      rw [depthAxisUntouched_conv_block]
      simp only [depthAxisUntouched] at h2 ⊢
      rw [depthAxisUntouched_conv_block] at h2 ⊢
      simp [h2, depthAxisUntouched_conv_block, Bool.and_self]

/-- Erasing batch normalization does not change static shapes. -/
theorem outShape_stripBN : ∀ g : Node, outShape (stripBN g) = outShape g := by
  intro g
  induction g with
  | input l => rfl
  | conv3D f k s sp a m ih => simp [stripBN, outShape, ih]
  | batchNorm m ih => simp [stripBN, outShape, ih]
  | dropout r m ih => simp [stripBN, outShape, ih]
  | maxPooling3D p1 p2 p3 m ih => simp [stripBN, outShape, ih]
  | upSampling3D u1 u2 u3 m ih => simp [stripBN, outShape, ih]
  | concatenate x y ihx ihy => simp [stripBN, outShape, ihx, ihy]

/-- Building the level recursion with batch normalization and erasing the
normalization nodes afterwards gives exactly the graph built without batch
normalization; errors agree as well. -/
theorem level_blockN_stripBN (inc : ℚ) (acti : String) (do_ : ℚ) (mp up res : Bool) :
    ∀ (k : ℕ) (m : Node) (dim : ℤ),
      level_blockN inc acti do_ false mp up res k (stripBN m) dim
        = Except.map stripBN (level_blockN inc acti do_ true mp up res k m dim) := by
  intro k
  induction k with
  | zero =>
    intro m dim
    simp [level_blockN, Except.map, stripBN_conv_block]
  | succ k ih =>
    intro m dim
    rw [level_blockN_succ, level_blockN_succ]
    have hm1 : (if mp then Node.maxPooling3D 1 2 2 (conv_block (stripBN m) dim acti false res 0)
        else Node.conv3D dim 3 2 true none (conv_block (stripBN m) dim acti false res 0))
        = stripBN (if mp then Node.maxPooling3D 1 2 2 (conv_block m dim acti true res 0)
        else Node.conv3D dim 3 2 true none (conv_block m dim acti true res 0)) := by
      cases mp <;> simp [stripBN, stripBN_conv_block]
    rw [hm1, ih]
    cases hrec : level_blockN inc acti do_ true mp up res k
        (if mp then Node.maxPooling3D 1 2 2 (conv_block m dim acti true res 0)
         else Node.conv3D dim 3 2 true none (conv_block m dim acti true res 0))
        (pyIntMul inc dim) with
    | error e => simp [Except.map]
    | ok g2 =>
      cases up <;> simp [Except.map, stripBN, stripBN_conv_block]

/-- C1 counterexample: the claim asserts that for every depth >= 0 a
construction with upconv = false raises; but at depth = 0 the recursion
takes its base case, the raise statement is never reached, and UNet
returns a model. -/
theorem C1_counterexample :
    isOk (UNet [8, 8, 8, 1] 1 4 0 2 "relu" (mkRat 1 2) false true false false) = true := by
  decide

/-- C1 (amended): calling UNet with upconv = false raises the designated
construction error exactly when depth >= 1; for depth <= 0 (including
depth = 0) the base case is taken, no error is raised, and a model is
returned. -/
theorem C1_upconv_false_raises (sh : List ℤ) (oc sc : ℤ) (depth : ℤ) (inc : ℚ)
    (acti : String) (dr : ℚ) (bn mp res : Bool) :
    (1 ≤ depth →
      UNet sh oc sc depth inc acti dr bn mp false res
        = .error "Unet in 3D does not work without upsampling") ∧
    (depth ≤ 0 → ∃ mdl, UNet sh oc sc depth inc acti dr bn mp false res = .ok mdl) := by
  constructor
  · intro hd
    obtain ⟨k, hk⟩ : ∃ k, depth.toNat = k + 1 := ⟨depth.toNat - 1, by omega⟩
    have herr := level_blockN_noup_err inc acti dr bn mp res k (Node.input sh) sc
    simp [UNet, level_block, hk, herr]
  · intro hd
    have h0 : depth.toNat = 0 := by omega
    refine ⟨⟨Node.input sh, Node.conv3D oc 1 1 false (some "sigmoid")
      (conv_block (Node.input sh) sc acti bn res dr)⟩, ?_⟩
    simp [UNet, level_block, h0, level_blockN]

/-- C1 witness: the amended statement at depth 1 (raises) and depth 0
(returns a model). -/
theorem C1_witness :
    UNet [8, 8, 8, 1] 1 4 1 2 "relu" (mkRat 1 2) false true false false
      = .error "Unet in 3D does not work without upsampling" ∧
    ∃ mdl, UNet [8, 8, 8, 1] 1 4 0 2 "relu" (mkRat 1 2) false true false false = .ok mdl :=
  ⟨(C1_upconv_false_raises [8, 8, 8, 1] 1 4 1 2 "relu" (mkRat 1 2) false true false).1
      (by decide),
   (C1_upconv_false_raises [8, 8, 8, 1] 1 4 0 2 "relu" (mkRat 1 2) false true false).2
      (by decide)⟩

/-- C2 counterexample: with maxpool = false, level_block creates a
convolution with scalar stride 2, which Keras broadcasts to all three
spatial axes; on an encoder block of shape (8, 8, 8, 4) its output shape
is (4, 4, 4, 4), so the first spatial (depth) axis is reduced from 8 to 4,
refuting the claim that the strided-convolution downsampling leaves the
depth axis untouched. -/
theorem C2_counterexample :
    contains (resNode (level_block (Node.input [8, 8, 8, 1]) 4 1 2 "relu" 0 false false true false))
        (Node.conv3D 4 3 2 true none
          (conv_block (Node.input [8, 8, 8, 1]) 4 "relu" false false 0)) = true ∧
    outShape (conv_block (Node.input [8, 8, 8, 1]) 4 "relu" false false 0) = some (8, 8, 8, 4) ∧
    outShape (Node.conv3D 4 3 2 true none
        (conv_block (Node.input [8, 8, 8, 1]) 4 "relu" false false 0)) = some (4, 4, 4, 4) ∧
    depthAxisUntouched
        (resNode (level_block (Node.input [8, 8, 8, 1]) 4 1 2 "relu" 0 false false true false))
      = false := by
  decide

/-- C2 (amended): the 1x2x2 max pooling and the 1x2x2 upsampling leave the
first spatial (depth) axis untouched, and with maxpool = true every
operation created by level_block leaves it untouched; the maxpool = false
strided convolution, by contrast, has stride 2 on all three spatial axes
and maps the depth axis a to ceil(a / 2). -/
theorem C2_depth_axis (m : Node) (a b c ch dim : ℤ)
    (h : outShape m = some (a, b, c, ch)) :
    outShape (Node.maxPooling3D 1 2 2 m) = some (a, poolOutDim 2 b, poolOutDim 2 c, ch) ∧
    outShape (Node.upSampling3D 1 2 2 m) = some (a, b * 2, c * 2, ch) ∧
    outShape (Node.conv3D dim 3 2 true none m)
      = some (ceilDivI a 2, ceilDivI b 2, ceilDivI c 2, dim) ∧
    (∀ (depth : ℤ) (inc : ℚ) (acti : String) (dr : ℚ) (bn res : Bool) (g : Node),
      level_block m dim depth inc acti dr bn true true res = .ok g →
      depthAxisUntouched g = depthAxisUntouched m) := by
  refine ⟨?_, ?_, ?_, ?_⟩
  · simp [outShape, h, poolOutDim_one]
  · simp [outShape, h]
  · simp [outShape, h, convOutDim]
  · intro depth inc acti dr bn res g hg
    exact level_blockN_depthAxis inc acti dr bn res depth.toNat m dim g hg

/-- C2 witness: the amended statement on the input node of shape
(8, 8, 8, 1) with 4 filters at depth 1. -/
theorem C2_witness :
    outShape (Node.maxPooling3D 1 2 2 (Node.input [8, 8, 8, 1]))
      = some (8, poolOutDim 2 8, poolOutDim 2 8, 1) ∧
    outShape (Node.conv3D 4 3 2 true none (Node.input [8, 8, 8, 1]))
      = some (ceilDivI 8 2, ceilDivI 8 2, ceilDivI 8 2, 4) ∧
    depthAxisUntouched
        (resNode (level_block (Node.input [8, 8, 8, 1]) 4 1 2 "relu" 0 false true true false))
      = depthAxisUntouched (Node.input [8, 8, 8, 1]) := by
  have h := C2_depth_axis (Node.input [8, 8, 8, 1]) 8 8 8 1 4 (by decide)
  refine ⟨h.1, h.2.2.1, ?_⟩
  exact h.2.2.2 1 2 "relu" 0 false false
    (resNode (level_block (Node.input [8, 8, 8, 1]) 4 1 2 "relu" 0 false true true false)) (by rfl)

/-- C3 counterexample: with start_ch = 3 and inc_rate = 3/2 the filter
count passed to the bottleneck block at depth 1 is int(1.5 * 3) = 4, not
start_ch * inc_rate = 4.5 as the claim states for every inc_rate >= 1; the
constructed graph indeed contains convolutions with 4 filters. -/
theorem C3_counterexample :
    levelDim 3 (mkRat 3 2) 1 = 4 ∧
    ((levelDim 3 (mkRat 3 2) 1 : ℚ) ≠ 3 * ((mkRat 3 2 : ℚ)) ^ (1 : ℕ)) ∧
    (4 : ℤ) ∈ convFilters
      (resNode (level_block (Node.input [8, 8, 8, 1]) 3 1 (mkRat 3 2) "relu" 0
        false true true false)) := by
  refine ⟨by decide, ?_, by decide⟩
  have h : levelDim 3 (mkRat 3 2) 1 = 4 := by decide
  rw [h]
  norm_num [Rat.mkRat_eq_div]

/-- C3 (amended): the filter count passed down the recursion is the
iterated truncation levelDim; for an integer growth rate q it equals
start_ch * q ^ (depth - d) at recursion level d, and the graph built by
level_block contains convolutions with each of these filter counts, the
bottleneck one included. -/
theorem C3_channel_powers (s : ℤ) (q : ℕ) (n : ℕ) (m : Node) (acti : String)
    (dr : ℚ) (bn mp res : Bool) :
    levelDim s (q : ℚ) n = s * (q : ℤ) ^ n ∧
    ∃ g, level_block m s (n : ℤ) (q : ℚ) acti dr bn mp true res = .ok g ∧
      ∀ k, k ≤ n → s * (q : ℤ) ^ k ∈ convFilters g := by
  refine ⟨levelDim_natCast s q n, ?_⟩
  obtain ⟨g, hg, hmem⟩ := level_blockN_filters_pow q acti dr bn mp res n m s
  refine ⟨g, ?_, hmem⟩
  rw [level_block, Int.toNat_natCast]
  exact hg

/-- C3 witness: with start_ch = 3, inc_rate = 2, depth = 1 the graph
contains a convolution with 3 * 2 ^ 1 = 6 filters (the bottleneck), and
levelDim gives exactly 6. -/
theorem C3_witness :
    levelDim 3 ((2 : ℕ) : ℚ) 1 = 3 * 2 ^ 1 ∧
    (3 : ℤ) * 2 ^ 1 ∈ convFilters
      (resNode (level_block (Node.input [2, 2, 2, 1]) 3 1 ((2 : ℕ) : ℚ) "relu" 0
        false true true false)) := by
  obtain ⟨hdim, g, hg, hmem⟩ :=
    C3_channel_powers 3 2 1 (Node.input [2, 2, 2, 1]) "relu" 0 false true false
  refine ⟨by exact_mod_cast hdim, ?_⟩
  have h6 := hmem 1 le_rfl
  simp only [Nat.cast_one] at hg
  rw [hg]
  simpa [resNode] using h6

/-- C4: UNet performs no validation: for every shape, every integer depth
(negative included), every channel count (zero and negative included) and
every other parameter, construction with upconv = true succeeds inside
this code, and the given channel counts are wired verbatim into the
convolution layer nodes handed to the framework, as is the input shape. -/
theorem C4_no_validation (sh : List ℤ) (oc sc : ℤ) (depth : ℤ) (inc : ℚ)
    (acti : String) (dr : ℚ) (bn mp res : Bool) :
    ∃ mdl, UNet sh oc sc depth inc acti dr bn mp true res = .ok mdl ∧
      mdl.inputs = Node.input sh ∧
      sc ∈ convFilters mdl.outputs ∧ oc ∈ convFilters mdl.outputs := by
  obtain ⟨g, hg, hmem⟩ :=
    level_blockN_up_ok inc acti dr bn mp res depth.toNat (Node.input sh) sc
  refine ⟨⟨Node.input sh, Node.conv3D oc 1 1 false (some "sigmoid") g⟩, ?_, rfl, ?_, ?_⟩
  · simp [UNet, level_block, hg]
  · simp [convFilters, hmem]
  · simp [convFilters]

/-- C5 counterexample: the claim asserts shape preservation for every
input shape, but with odd pooled axes (here 7) the 1x2x2 pooling gives 3
while upsampling gives back 6, the decoder concatenation receives
mismatched spatial shapes and the framework rejects the graph: shape
inference yields none rather than the input shape. -/
theorem C5_counterexample :
    isOk (UNet [8, 7, 7, 1] 1 4 1 2 "relu" (mkRat 1 2) false true true false) = true ∧
    outShape (resModel (UNet [8, 7, 7, 1] 1 4 1 2 "relu" (mkRat 1 2) false true true false)).outputs
      = none ∧
    outShape (resModel (UNet [8, 7, 7, 1] 1 4 1 2 "relu" (mkRat 1 2) false true true false)).outputs
      ≠ some (8, 7, 7, 1) := by
  refine ⟨by decide, by decide, ?_⟩
  decide

/-- C5 (amended): with maxpool = true and upconv = true, for every depth n
and every rank-4 input shape whose two pooled axes are divisible by 2 ^ n,
UNet returns a model whose output shape equals the input shape with the
channel axis replaced by out_ch: pooling and upsampling invert each other
exactly on axes divisible by 2 at every level. -/
theorem C5_shape_preserved (a b c ch oc sc : ℤ) (n : ℕ) (inc : ℚ) (acti : String)
    (dr : ℚ) (bn res : Bool) (hb : (2:ℤ) ^ n ∣ b) (hc : (2:ℤ) ^ n ∣ c) :
    ∃ mdl, UNet [a, b, c, ch] oc sc (n : ℤ) inc acti dr bn true true res = .ok mdl ∧
      outShape mdl.inputs = some (a, b, c, ch) ∧
      outShape mdl.outputs = some (a, b, c, oc) := by
  have hin : outShape (Node.input [a, b, c, ch]) = some (a, b, c, ch) := rfl
  obtain ⟨g, ch2, hg, hsh⟩ := level_blockN_shape inc acti dr bn res n
    (Node.input [a, b, c, ch]) sc a b c ch hin hb hc
  refine ⟨⟨Node.input [a, b, c, ch], Node.conv3D oc 1 1 false (some "sigmoid") g⟩, ?_, hin, ?_⟩
  · simp [UNet, level_block, Int.toNat_natCast, hg]
  · rw [show outShape (Node.conv3D oc 1 1 false (some "sigmoid") g)
        = match outShape g with
          | some (x, y, z, _) =>
            some (convOutDim false 1 1 x, convOutDim false 1 1 y, convOutDim false 1 1 z, oc)
          | none => none from rfl, hsh]
    simp [convOutDim_valid_one]

/-- C5 witness: shape (8, 64, 64, 1) at depth 3 is preserved with the
channel axis mapped to out_ch = 1. -/
theorem C5_witness :
    outShape (resModel
      (UNet [8, 64, 64, 1] 1 4 3 2 "relu" (mkRat 1 2) false true true false)).outputs
      = some (8, 64, 64, 1) := by
  obtain ⟨mdl, hU, hin, hout⟩ := C5_shape_preserved 8 64 64 1 1 4 3 2 "relu" (mkRat 1 2)
    false false ⟨8, by norm_num⟩ ⟨8, by norm_num⟩
  simp only [Nat.cast_ofNat] at hU
  rw [hU]
  exact hout

/-- C6: in every successfully constructed model every dropout node carries
the configured rate, all dropout occurrences are the same single
bottleneck node (the encoder and decoder blocks are built with rate 0), and
with rate 0 the graph has no dropout node at all. -/
theorem C6_dropout_only_bottleneck (sh : List ℤ) (oc sc depth : ℤ) (inc : ℚ)
    (acti : String) (dr : ℚ) (bn mp up res : Bool) (mdl : Model)
    (hU : UNet sh oc sc depth inc acti dr bn mp up res = .ok mdl) :
    (∀ x ∈ dropoutNodesIn mdl.outputs, ∃ y, x = Node.dropout dr y) ∧
    (∀ x ∈ dropoutNodesIn mdl.outputs, ∀ x2 ∈ dropoutNodesIn mdl.outputs, x = x2) ∧
    (dr = 0 → dropoutNodesIn mdl.outputs = []) := by
  cases hlb : level_block (Node.input sh) sc depth inc acti dr bn mp up res with
  | error e => simp [UNet, hlb] at hU
  | ok o =>
    simp only [UNet, hlb, Except.ok.injEq] at hU
    subst hU
    rw [level_block] at hlb
    obtain ⟨y, hy⟩ := level_blockN_dropout inc acti dr bn mp up res depth.toNat
      (Node.input sh) sc o hlb
    have hdn : dropoutNodesIn
        (Node.conv3D oc 1 1 false (some "sigmoid") o) = dropoutNodesIn o := rfl
    have hy2 : ∀ x ∈ dropoutNodesIn o, dr ≠ 0 ∧ x = Node.dropout dr y := by
      intro x hx
      rcases hy x hx with hin | h
      · simp [dropoutNodesIn] at hin
      · exact h
    refine ⟨?_, ?_, ?_⟩
    · intro x hx
      exact ⟨y, (hy2 x (by simpa [hdn] using hx)).2⟩
    · intro x hx x2 hx2
      rw [(hy2 x (by simpa [hdn] using hx)).2, (hy2 x2 (by simpa [hdn] using hx2)).2]
    · intro h0
      rw [hdn]
      rw [List.eq_nil_iff_forall_not_mem]
      intro x hx
      exact (hy2 x hx).1 h0

/-- C6 witness: a depth-1 model built with dropout rate 0 has no dropout
node. -/
theorem C6_witness :
    dropoutNodesIn (resModel
      (UNet [2, 2, 2, 1] 1 3 1 2 "relu" 0 false true true false)).outputs = [] := by
  have h := C6_dropout_only_bottleneck [2, 2, 2, 1] 1 3 1 2 "relu" 0 false true true false
    (resModel (UNet [2, 2, 2, 1] 1 3 1 2 "relu" 0 false true true false)) (by rfl)
  exact h.2.2 rfl

/-- C7: every successfully constructed model consists of the level
recursion output wrapped in exactly one final kernel-size-1 valid-padding
convolution with out_ch filters and sigmoid activation, whatever the
configured interior activation. -/
theorem C7_final_sigmoid_conv (sh : List ℤ) (oc sc depth : ℤ) (inc : ℚ)
    (acti : String) (dr : ℚ) (bn mp up res : Bool) (mdl : Model)
    (hU : UNet sh oc sc depth inc acti dr bn mp up res = .ok mdl) :
    ∃ o, level_block (Node.input sh) sc depth inc acti dr bn mp up res = .ok o ∧
      mdl.outputs = Node.conv3D oc 1 1 false (some "sigmoid") o ∧
      mdl.inputs = Node.input sh := by
  cases hlb : level_block (Node.input sh) sc depth inc acti dr bn mp up res with
  | error e => simp [UNet, hlb] at hU
  | ok o =>
    simp only [UNet, hlb, Except.ok.injEq] at hU
    subst hU
    exact ⟨o, rfl, rfl, rfl⟩

/-- C7 witness: at depth 0 with interior activation relu, the output node
is the sigmoid pointwise convolution applied to the bottleneck block. -/
theorem C7_witness :
    (resModel (UNet [2, 2, 2, 1] 1 3 0 2 "relu" 0 false true true false)).outputs
      = Node.conv3D 1 1 1 false (some "sigmoid")
          (conv_block (Node.input [2, 2, 2, 1]) 3 "relu" false false 0) := by
  obtain ⟨o, ho, hout, hin⟩ := C7_final_sigmoid_conv [2, 2, 2, 1] 1 3 0 2 "relu" 0
    false true true false
    (resModel (UNet [2, 2, 2, 1] 1 3 0 2 "relu" 0 false true true false)) (by rfl)
  have hcb : level_block (Node.input [2, 2, 2, 1]) 3 0 2 "relu" 0 false true true false
      = .ok (conv_block (Node.input [2, 2, 2, 1]) 3 "relu" false false 0) := rfl
  rw [ho] at hcb
  injection hcb with hcb
  rw [hout, hcb]

/-- C8: with residual the block output is the concatenation of the block
input with the plain (non-residual) block output, so its channel count is
the input channel count plus the block channel count; without residual it
is the plain chain with exactly the block channel count. -/
theorem C8_residual_concat (m : Node) (dim : ℤ) (acti : String) (bn : Bool) (d : ℚ)
    (a b c ch : ℤ) (h : outShape m = some (a, b, c, ch)) :
    conv_block m dim acti bn true d
      = Node.concatenate m (conv_block m dim acti bn false d) ∧
    outShape (conv_block m dim acti bn true d) = some (a, b, c, ch + dim) ∧
    outShape (conv_block m dim acti bn false d) = some (a, b, c, dim) := by
  refine ⟨?_, ?_, ?_⟩
  · simp [conv_block]
  · simpa using conv_block_outShape m dim acti bn true d a b c ch h
  · simpa using conv_block_outShape m dim acti bn false d a b c ch h

/-- C8 witness: on the rank-4 input of shape (2, 2, 2, 1) with 3 filters
the residual block has 1 + 3 = 4 output channels and the plain block 3. -/
theorem C8_witness :
    conv_block (Node.input [2, 2, 2, 1]) 3 "relu" false true 0
      = Node.concatenate (Node.input [2, 2, 2, 1])
          (conv_block (Node.input [2, 2, 2, 1]) 3 "relu" false false 0) ∧
    outShape (conv_block (Node.input [2, 2, 2, 1]) 3 "relu" false true 0)
      = some (2, 2, 2, 4) ∧
    outShape (conv_block (Node.input [2, 2, 2, 1]) 3 "relu" false false 0)
      = some (2, 2, 2, 3) := by
  have h := C8_residual_concat (Node.input [2, 2, 2, 1]) 3 "relu" false 0 2 2 2 1 (by decide)
  exact ⟨h.1, by simpa using h.2.1, h.2.2⟩

/-- C9: building with batchnorm = true and erasing every normalization
node yields exactly the graph built with batchnorm = false (and the same
error on failure); erasing normalization nodes never changes any static
shape, so the two graphs differ only in the normalization nodes. -/
theorem C9_batchnorm_frame :
    (∀ (sh : List ℤ) (oc sc depth : ℤ) (inc : ℚ) (acti : String) (dr : ℚ) (mp up res : Bool),
      Except.map stripBNModel (UNet sh oc sc depth inc acti dr true mp up res)
        = UNet sh oc sc depth inc acti dr false mp up res) ∧
    (∀ g : Node, outShape (stripBN g) = outShape g) := by
  constructor
  · intro sh oc sc depth inc acti dr mp up res
    have hm := level_blockN_stripBN inc acti dr mp up res depth.toNat (Node.input sh) sc
    rw [show stripBN (Node.input sh) = Node.input sh from rfl] at hm
    cases hrec : level_blockN inc acti dr true mp up res depth.toNat (Node.input sh) sc with
    | error e =>
      rw [hrec] at hm
      simp [UNet, level_block, hrec, hm, Except.map]
    | ok g =>
      rw [hrec] at hm
      simp [UNet, level_block, hrec, hm, Except.map, stripBNModel, stripBN]
  · exact outShape_stripBN

/-- C10: the bottleneck receives the raw dropout argument, and conv_block
inserts a dropout node after the first convolution and its optional
normalization exactly when that argument is nonzero (Python truthiness),
negative rates included; with rate 0 the block contributes no dropout
node. -/
theorem C10_dropout_truthiness (m : Node) (dim : ℤ) (acti : String) (bn res : Bool)
    (d : ℚ) (depth : ℤ) (inc : ℚ) (mp up : Bool) :
    (depth ≤ 0 →
      level_block m dim depth inc acti d bn mp up res
        = .ok (conv_block m dim acti bn res d)) ∧
    (d ≠ 0 →
      Node.dropout d (bnIf bn (Node.conv3D dim 3 1 true (some acti) m))
        ∈ dropoutNodesIn (conv_block m dim acti bn res d)) ∧
    (d = 0 →
      dropoutNodesIn (conv_block m dim acti bn res d)
        = (if res then dropoutNodesIn m else []) ++ dropoutNodesIn m) := by
  refine ⟨?_, ?_, ?_⟩
  · intro hd
    have h0 : depth.toNat = 0 := by omega
    rw [level_block, h0]
    rfl
  · intro hd
    rw [dropoutNodesIn_conv_block, if_neg hd]
    cases res <;> simp
  · intro hd
    rw [dropoutNodesIn_conv_block, if_pos hd]
    simp

/-- C10 witness: depth -1 takes the base case with the raw rate 1/2; a
negative rate -1/2 is truthy and produces a dropout node; rate 0 produces
none. -/
theorem C10_witness :
    (level_block (Node.input [2, 2, 2, 1]) 3 (-1) 2 "relu" (mkRat 1 2) false true true false
      = .ok (conv_block (Node.input [2, 2, 2, 1]) 3 "relu" false false (mkRat 1 2))) ∧
    (Node.dropout (-(mkRat 1 2))
        (bnIf false (Node.conv3D 3 3 1 true (some "relu") (Node.input [2, 2, 2, 1])))
      ∈ dropoutNodesIn
          (conv_block (Node.input [2, 2, 2, 1]) 3 "relu" false false (-(mkRat 1 2)))) ∧
    (dropoutNodesIn (conv_block (Node.input [2, 2, 2, 1]) 3 "relu" false false 0)
      = (if false then dropoutNodesIn (Node.input [2, 2, 2, 1]) else [])
          ++ dropoutNodesIn (Node.input [2, 2, 2, 1])) :=
  ⟨(C10_dropout_truthiness (Node.input [2, 2, 2, 1]) 3 "relu" false false (mkRat 1 2)
      (-1) 2 true true).1 (by decide),
   (C10_dropout_truthiness (Node.input [2, 2, 2, 1]) 3 "relu" false false (-(mkRat 1 2))
      (-1) 2 true true).2.1 (by decide),
   (C10_dropout_truthiness (Node.input [2, 2, 2, 1]) 3 "relu" false false 0
      (-1) 2 true true).2.2 rfl⟩

end UNet3D
